import Mathlib

/-!
Shallow embedding of `abm_project/agent.py` (CityModel agents):
`CarAgent` (the congestion car), `TrafficLightAgent` and `IntersectionAgent`.

Python integers are modelled as `ℤ`, Python floats arising from true
division as `ℚ`.  Fallible operations (Python exceptions such as
`ZeroDivisionError`, `IndexError`, `ValueError`) return `Option`, with
`none` marking the exception.  The mesa grid is an external collaborator
and enters `step` as a function `Pos → List Occ` giving the ordered cell
contents; the uniform random draw of `update_haste` enters as a `ℚ`
parameter.
-/

namespace ABM

abbrev Pos := ℤ × ℤ

/-- A grid occupant as seen by `CarAgent.step`: either a
`TrafficLightAgent` (with its `state` field) or any other agent
(`CarAgent`, `BuildingAgent`, ...), of which only `pos` is ever read. -/
inductive Occ where
  | light (state : ℤ) (p : Pos)
  | other (p : Pos)
deriving DecidableEq

def Occ.pos : Occ → Pos
  | .light _ p => p
  | .other p => p

def Occ.isLight : Occ → Bool
  | .light _ _ => true
  | .other _ => false

/-- Python `int()` applied to a (rational-valued) float: truncation
toward zero. -/
def pyInt (q : ℚ) : ℤ := if 0 ≤ q then ⌊q⌋ else ⌈q⌉

/-- Clamp one endpoint of a Python slice `l[a:b]` into `[0, len]`,
with the Python treatment of negative indices. -/
def pySliceIdx (len : ℕ) (i : ℤ) : ℕ :=
  if i < 0 then (max (i + len) 0).toNat else min i.toNat len

/-- Python list slicing `l[a:b]` (step 1). -/
def pySlice (l : List α) (a b : ℤ) : List α :=
  (l.take (pySliceIdx l.length b)).drop (pySliceIdx l.length a)

/-- Python list indexing `l[i]`, with negative wraparound;
`none` is an `IndexError`. -/
def pyGet (l : List α) (i : ℤ) : Option α :=
  let j := if i < 0 then i + l.length else i
  if j < 0 then none else l.get? j.toNat

/-- Python `list.index(x)`: index of the first occurrence, `none` is a
`ValueError`. -/
def pyIndex (l : List Pos) (x : Pos) : Option ℕ :=
  l.findIdx? (fun r => r == x)

/-- The mutable state of a `CarAgent` (the model reference and
`unique_id` carry no behaviour and are omitted). -/
structure CarState where
  path : List Pos
  pos_i : ℤ
  pos : Pos
  max_velocity : ℤ
  velocity : ℤ
  velocity_sum : ℤ
  max_velocity_sum : ℤ
  congestion : ℚ
  haste : ℤ
  steps : ℤ
  tolerance : ℚ
deriving DecidableEq

/-- `CarAgent.__init__`: `pos = path[0]` raises `IndexError` on an empty
path, and `congestion = velocity/max_velocity` raises
`ZeroDivisionError` when `max_velocity == 0`. -/
def carInit (path : List Pos) (max_velocity : ℤ) (tolerance : ℚ) : Option CarState :=
  match path with
  | [] => none
  | p :: _ =>
    if max_velocity = 0 then none
    else some
      { path := path
        pos_i := 0
        pos := p
        max_velocity := max_velocity
        velocity := max_velocity
        velocity_sum := 0
        max_velocity_sum := 0
        congestion := (max_velocity : ℚ) / (max_velocity : ℚ)
        haste := 0
        steps := 0
        tolerance := tolerance }

/-- `CarAgent.accelerate`: `self.velocity += int(amount)`. -/
def accelerate (s : CarState) (amount : ℚ) : CarState :=
  { s with velocity := s.velocity + pyInt amount }

/-- `CarAgent.decelerate`. -/
def decelerate (s : CarState) (distance : ℤ) : CarState :=
  if 0 < distance then { s with velocity := ⌈(distance : ℚ) / 2⌉ }
  else { s with velocity := 0 }

/-- `CarAgent.update_congestion`; `none` is the `ZeroDivisionError` on
`velocity_sum/max_velocity_sum`. -/
def update_congestion (s : CarState) : Option CarState :=
  let vs := s.velocity_sum + s.velocity
  let mvs := s.max_velocity_sum + s.max_velocity
  if mvs = 0 then none
  else some
    { s with
      velocity_sum := vs
      max_velocity_sum := mvs
      congestion := (vs : ℚ) / (mvs : ℚ)
      steps := s.steps + 1 }

/-- `CarAgent.update_haste`.  The quotient
`(velocity_sum/steps)/max_velocity` is computed unconditionally, before
the `steps > 10` guard, so `none` (`ZeroDivisionError`) arises exactly
when `steps == 0` or `max_velocity == 0`. -/
def update_haste (draw : ℚ) (s : CarState) : Option CarState :=
  if s.steps = 0 then none
  else if s.max_velocity = 0 then none
  else
    let haste_probability := ((s.velocity_sum : ℚ) / (s.steps : ℚ)) / (s.max_velocity : ℚ)
    if 10 < s.steps then
      if s.congestion < s.tolerance ∧ draw < haste_probability then
        let mv := s.max_velocity + pyInt ⌈(s.max_velocity : ℚ) * (1 / 4 : ℚ)⌉
        some { s with
               haste := 1
               max_velocity := mv
               velocity := if mv < s.velocity then mv else s.velocity }
      else if s.haste ≠ 0 then
        some { s with
               haste := 0
               max_velocity := 5
               velocity := if 5 < s.velocity then 5 else s.velocity }
      else some s
    else some s

/-- The `distance_to_next` computed in the lookahead part of
`CarAgent.step`: the `list.index` offset of the first occupant of
`content`, lowered by one when that occupant is a `TrafficLightAgent`
and `content[1]` sits on the same cell. -/
def usableDistance (next_path : List Pos) (next_obj : Occ) (rest : List Occ) : Option ℤ :=
  match pyIndex next_path next_obj.pos with
  | none => none
  | some i =>
    match next_obj with
    | .light _ p =>
      match rest with
      | c1 :: _ => if c1.pos = p then some ((i : ℤ) - 1) else some (i : ℤ)
      | [] => some (i : ℤ)
    | .other _ => some (i : ℤ)

/-- The lookahead / gap-following part of `CarAgent.step` (the
`if content:` block). -/
def lookahead (next_path : List Pos) (content : List Occ) (s : CarState) : Option CarState :=
  match content with
  | [] => some s
  | next_obj :: rest =>
    match usableDistance next_path next_obj rest with
    | none => none
    | some d =>
      let tl := next_obj.isLight
      if 0 < s.velocity ∧ d ≤ s.velocity then
        some (decelerate s (if tl then d + 1 else d))
      else if s.velocity < s.max_velocity then
        let d2 := if tl then d + 1 else d
        let s1 := accelerate s (⌈((s.max_velocity - s.velocity : ℤ) : ℚ) / 2⌉ : ℚ)
        some (if d2 < s1.velocity then { s1 with velocity := d2 }
              else if s1.max_velocity < s1.velocity then { s1 with velocity := s1.max_velocity }
              else s1)
      else some s

/-- Outcome of the current-cell signal check in `CarAgent.step`:
`halt` is the early `return` on a non-green light. -/
inductive CurrentRes where
  | halt (s : CarState)
  | cont (s : CarState)

/-- The current-cell part of `CarAgent.step`: only `current[0]` is
inspected (`none` is the `IndexError` on an empty cell list).  On a
green light the agent accelerates by
`int(np.ceil(max_velocity - velocity)/2)` — note the ceiling is applied
to the integer difference (a no-op) before the division by 2. -/
def reactCurrent (current : List Occ) (s : CarState) : Option CurrentRes :=
  match current with
  | [] => none
  | c0 :: _ =>
    match c0 with
    | .light st _ =>
      if st ≠ 0 then some (.halt { s with velocity := 0 })
      else some (.cont (accelerate s ((⌈((s.max_velocity - s.velocity : ℤ) : ℚ)⌉ : ℚ) / 2)))
    | .other _ => some (.cont s)

/-- Result of one `CarAgent.step`: the agent either survives with a new
state or destroys itself at the end of its path. -/
inductive CarResult where
  | destroyed
  | alive (s : CarState)
deriving DecidableEq

/-- `CarAgent.move`. -/
def move (next_path : List Pos) (s : CarState) : Option CarResult :=
  if (s.path.length : ℤ) ≤ s.pos_i + s.velocity then some .destroyed
  else if 0 < s.velocity then
    match pyGet next_path (s.velocity - 1) with
    | none => none
    | some p => some (.alive { s with pos := p, pos_i := s.pos_i + s.velocity })
  else some (.alive s)

/-- The part of `CarAgent.step` after `update_congestion` and
`update_haste`: slice the path, query the grid, react to the current
cell, look ahead, move. -/
def carStepAfter (g : Pos → List Occ) (s : CarState) : Option CarResult :=
  let next_path := pySlice s.path (s.pos_i + 1) (s.pos_i + s.max_velocity + 1)
  let content := (next_path.map g).flatten
  (reactCurrent (g s.pos) s).bind fun res =>
    match res with
    | .halt s3 => some (.alive s3)
    | .cont s3 => (lookahead next_path content s3).bind (move next_path)

/-- `CarAgent.step`, with the grid `g` and the uniform draw `draw` as
explicit inputs. -/
def carStep (g : Pos → List Occ) (draw : ℚ) (s : CarState) : Option CarResult :=
  (update_congestion s).bind fun s1 =>
    (update_haste draw s1).bind fun s2 =>
      carStepAfter g s2

/-- The state of a `TrafficLightAgent`: `state` is 0 (green), 1 (yellow)
or 2 (red); `pos` is fixed. -/
structure TrafficLight where
  state : ℤ
  pos : Pos
deriving DecidableEq

/-- `TrafficLightAgent.switch(include_yellow)`. -/
def TrafficLight.switch (include_yellow : Bool) (t : TrafficLight) : TrafficLight :=
  if include_yellow then
    if t.state = 2 then { t with state := 0 } else { t with state := t.state + 1 }
  else
    if t.state = 2 then { t with state := 0 } else { t with state := 2 }

/-- The state of an `IntersectionAgent`. -/
structure IntersectionState where
  pos : Pos
  counter : ℤ
  traffic_lights : List TrafficLight
  green_duration : ℤ
  yellow_duration : ℤ
deriving DecidableEq

/-- `IntersectionAgent.__init__`: four lights at fixed offsets around
`pos`; each loop iteration appends one red (`state=2`) and one green
(`state=0`) light; `yellow_duration` is hardcoded to 2. -/
def intersectionInit (pos : Pos) (green_light_duration : ℤ) : IntersectionState :=
  { pos := pos
    counter := 0
    traffic_lights :=
      [ { state := 2, pos := (pos.1 - 1, pos.2) }
      , { state := 0, pos := (pos.1 + 1, pos.2 - 1) }
      , { state := 2, pos := (pos.1 + 2, pos.2 + 1) }
      , { state := 0, pos := (pos.1, pos.2 + 2) } ]
    green_duration := green_light_duration
    yellow_duration := 2 }

/-- The branch logic of `IntersectionAgent.step`, before the
unconditional final `self.counter += 1`. -/
def intersectionPhase (s : IntersectionState) : IntersectionState :=
  if 0 < s.yellow_duration then
    if s.counter = s.green_duration then
      { s with traffic_lights :=
          s.traffic_lights.map fun tl =>
            if tl.state = 0 then tl.switch true else tl }
    else if s.counter = s.green_duration + s.yellow_duration then
      { s with traffic_lights := s.traffic_lights.map (TrafficLight.switch true)
               counter := 0 }
    else s
  else
    if s.counter = s.green_duration then
      { s with traffic_lights := s.traffic_lights.map (TrafficLight.switch false)
               counter := 0 }
    else s

/-- `IntersectionAgent.step`: the branch logic followed by
`self.counter += 1`, executed on every call. -/
def intersectionStep (s : IntersectionState) : IntersectionState :=
  let s1 := intersectionPhase s
  { s1 with counter := s1.counter + 1 }

/-- States of an `IntersectionAgent` reachable by repeatedly calling
`step()` from construction at anchor `p` with the given green
duration. -/
inductive IReachable (p : Pos) (g : ℤ) : IntersectionState → Prop where
  | init : IReachable p g (intersectionInit p g)
  | step : ∀ s, IReachable p g s → IReachable p g (intersectionStep s)

/-- The light at index `i` exists and is green. -/
def greenAt (s : IntersectionState) (i : ℕ) : Prop :=
  ∃ t, s.traffic_lights.get? i = some t ∧ t.state = 0

/-- The two opposite-phase pairs (lights 0,2 versus lights 1,3) are
both showing green at the same time. -/
def bothPairsGreen (s : IntersectionState) : Prop :=
  (greenAt s 0 ∨ greenAt s 2) ∧ (greenAt s 1 ∨ greenAt s 3)

/-- Reachable `CarAgent` states: constructed via `CarAgent.__init__`
with `max_velocity ≥ 1`, then any number of surviving `step()` calls
against arbitrary grid contents and random draws. -/
inductive CarReachable : CarState → Prop where
  | init : ∀ path mv tol s, 1 ≤ mv → carInit path mv tol = some s → CarReachable s
  | step : ∀ g draw s s', CarReachable s →
      carStep g draw s = some (.alive s') → CarReachable s'

/-- The inductive invariant of a reachable `CarAgent`. -/
def CarInv (s : CarState) : Prop :=
  1 ≤ s.max_velocity ∧ 0 ≤ s.velocity ∧ s.velocity ≤ s.max_velocity ∧
    0 ≤ s.velocity_sum ∧ s.velocity_sum ≤ s.max_velocity_sum ∧ 0 ≤ s.steps ∧
    (0 < s.max_velocity_sum →
      s.congestion = (s.velocity_sum : ℚ) / (s.max_velocity_sum : ℚ))

/-- All fields agree except possibly `velocity`. -/
def SameExceptVel (s s' : CarState) : Prop :=
  s'.path = s.path ∧ s'.pos_i = s.pos_i ∧ s'.pos = s.pos ∧
    s'.max_velocity = s.max_velocity ∧ s'.velocity_sum = s.velocity_sum ∧
    s'.max_velocity_sum = s.max_velocity_sum ∧ s'.congestion = s.congestion ∧
    s'.haste = s.haste ∧ s'.steps = s.steps ∧ s'.tolerance = s.tolerance

/-- A red light everywhere: each queried cell holds one red
`TrafficLightAgent`. -/
def gRed : Pos → List Occ := fun p => [Occ.light 2 p]

/-- A concrete freshly constructed agent: 2-cell path,
`max_velocity = 1`. -/
def carW : CarState :=
  { path := [(0, 0), (1, 0)]
    pos_i := 0
    pos := (0, 0)
    max_velocity := 1
    velocity := 1
    velocity_sum := 0
    max_velocity_sum := 0
    congestion := ((1 : ℤ) : ℚ) / ((1 : ℤ) : ℚ)
    haste := 0
    steps := 0
    tolerance := 0 }

/-- `carW` after one `step()` against `gRed`: the red light on its cell
zeroes the velocity. -/
def carW1 : CarState :=
  { path := [(0, 0), (1, 0)]
    pos_i := 0
    pos := (0, 0)
    max_velocity := 1
    velocity := 0
    velocity_sum := 0 + 1
    max_velocity_sum := 0 + 1
    congestion := ((0 + 1 : ℤ) : ℚ) / ((0 + 1 : ℤ) : ℚ)
    haste := 0
    steps := 0 + 1
    tolerance := 0 }

/-- Grid for the C1 counterexample: the agent's cell holds another
agent first and a red light second; all other cells are empty. -/
def gC1 : Pos → List Occ := fun p =>
  if p = ((0 : ℤ), (0 : ℤ)) then
    [Occ.other ((0 : ℤ), (0 : ℤ)), Occ.light 2 ((0 : ℤ), (0 : ℤ))] else []

def carC1 : CarState :=
  { path := [(0, 0), (1, 0), (2, 0), (3, 0)]
    pos_i := 0
    pos := (0, 0)
    max_velocity := 2
    velocity := 1
    velocity_sum := 0
    max_velocity_sum := 0
    congestion := 0
    haste := 0
    steps := 0
    tolerance := 0 }

/-- `carC1` after one `step()` against `gC1`: it moved one cell. -/
def carC1After : CarState :=
  { path := [(0, 0), (1, 0), (2, 0), (3, 0)]
    pos_i := 0 + 1
    pos := (1, 0)
    max_velocity := 2
    velocity := 1
    velocity_sum := 0 + 1
    max_velocity_sum := 0 + 2
    congestion := ((0 + 1 : ℤ) : ℚ) / ((0 + 2 : ℤ) : ℚ)
    haste := 0
    steps := 0 + 1
    tolerance := 0 }

/-- Grid for the C2 evaluation: a green light on the agent's cell,
nothing anywhere else. -/
def gC2 : Pos → List Occ := fun p =>
  if p = ((0 : ℤ), (0 : ℤ)) then [Occ.light 0 ((0 : ℤ), (0 : ℤ))] else []

def carC2 : CarState :=
  { path := [(0, 0), (1, 0), (2, 0), (3, 0), (4, 0), (5, 0)]
    pos_i := 0
    pos := (0, 0)
    max_velocity := 3
    velocity := 0
    velocity_sum := 0
    max_velocity_sum := 0
    congestion := 0
    haste := 0
    steps := 0
    tolerance := 0 }

/-- `carC2` after `update_congestion` and `update_haste`. -/
def c2s1 : CarState :=
  { carC2 with
    velocity_sum := 0 + 0
    max_velocity_sum := 0 + 3
    congestion := ((0 + 0 : ℤ) : ℚ) / ((0 + 3 : ℤ) : ℚ)
    steps := 0 + 1 }

/-- `c2s1` after the green-light acceleration: the velocity went up by
`int(np.ceil(3 - 0)/2) = 1`, not `ceil((3 - 0)/2) = 2`. -/
def c2s2 : CarState := { c2s1 with velocity := 1 }

def npC2 : List Pos := [(1, 0), (2, 0), (3, 0)]

def carC2After : CarState := { c2s2 with pos := (1, 0), pos_i := 0 + 1 }

def npC3 : List Pos := [(1, 0), (2, 0), (3, 0), (4, 0)]

def contentC3 : List Occ :=
  [Occ.light 2 ((4 : ℤ), (0 : ℤ)), Occ.other ((4 : ℤ), (0 : ℤ))]

def carC3 : CarState :=
  { path := [(0, 0), (1, 0), (2, 0), (3, 0), (4, 0)]
    pos_i := 0
    pos := (0, 0)
    max_velocity := 4
    velocity := 2
    velocity_sum := 0
    max_velocity_sum := 0
    congestion := 0
    haste := 0
    steps := 0
    tolerance := 0 }

def iC7 : ℕ → IntersectionState := fun n =>
  intersectionStep^[n] (intersectionInit (0, 0) 3)

/-- The safe region of the intersection automaton, per green-duration
regime: `a` is the common state of lights 0 and 2, `b` of lights 1
and 3, `c` the counter. -/
def Safe (g c a b : ℤ) : Prop :=
  (1 ≤ g ∧ ((c ≤ g ∧ ((a = 2 ∧ b = 0) ∨ (a = 0 ∧ b = 2))) ∨
    (g < c ∧ c ≤ g + 2 ∧ ((a = 2 ∧ b = 1) ∨ (a = 1 ∧ b = 2))))) ∨
  (g = 0 ∧ ((c = 0 ∧ a = 2 ∧ b = 0) ∨
    (1 ≤ c ∧ c ≤ 2 ∧ ((a = 2 ∧ b = 1) ∨ (a = 0 ∧ b = 2) ∨ (a = 1 ∧ b = 0))))) ∨
  (g = -1 ∧ ((c = 0 ∧ a = 2 ∧ b = 0) ∨
    (c = 1 ∧ ((a = 0 ∧ b = 1) ∨ (a = 1 ∧ b = 2) ∨ (a = 2 ∧ b = 0))))) ∨
  (g = -2 ∧ ((c = 0 ∧ a = 2 ∧ b = 0) ∨ (1 ≤ c ∧ a = 0 ∧ b = 1))) ∨
  (g ≤ -3 ∧ a = 2 ∧ b = 0)

/-- The inductive invariant of a reachable `IntersectionAgent`. -/
def IInv (g : ℤ) (s : IntersectionState) : Prop :=
  s.green_duration = g ∧ s.yellow_duration = 2 ∧ 0 ≤ s.counter ∧
    ∃ a b, s.traffic_lights.map TrafficLight.state = [a, b, a, b] ∧
      Safe g s.counter a b

/-! ### Arithmetic helper lemmas -/

lemma pyInt_intCast (n : ℤ) : pyInt ((n : ℚ)) = n := by
  unfold pyInt
  split <;> simp

lemma pyInt_half_bounds {k : ℤ} (hk : 0 ≤ k) :
    0 ≤ pyInt ((k : ℚ) / 2) ∧ pyInt ((k : ℚ) / 2) ≤ k := by
  have hq : (0 : ℚ) ≤ (k : ℚ) / 2 := by positivity
  unfold pyInt
  rw [if_pos hq]
  refine ⟨Int.le_floor.mpr (by exact_mod_cast hq), ?_⟩
  have h2 : (k : ℚ) / 2 ≤ (k : ℚ) := half_le_self (by exact_mod_cast hk)
  calc ⌊(k : ℚ) / 2⌋ ≤ ⌊(k : ℚ)⌋ := Int.floor_mono h2
    _ = k := Int.floor_intCast k

lemma ceil_half_bounds {k : ℤ} (hk : 1 ≤ k) :
    1 ≤ ⌈(k : ℚ) / 2⌉ ∧ ⌈(k : ℚ) / 2⌉ ≤ k := by
  have hq : (0 : ℚ) < (k : ℚ) / 2 := by
    have : (0 : ℚ) < (k : ℚ) := by exact_mod_cast hk
    positivity
  refine ⟨Int.ceil_pos.mpr hq, Int.ceil_le.mpr ?_⟩
  exact half_le_self (by exact_mod_cast (by omega : (0 : ℤ) ≤ k))

lemma ceil_half_le {a v : ℤ} (ha : a ≤ 2 * v) : ⌈(a : ℚ) / 2⌉ ≤ v := by
  apply Int.ceil_le.mpr
  have : (a : ℚ) ≤ 2 * (v : ℚ) := by exact_mod_cast ha
  linarith

/-! ### Field-tracking lemmas for the phases of `CarAgent.step` -/

lemma sameExceptVel_refl (s : CarState) : SameExceptVel s s := by
  unfold SameExceptVel
  exact ⟨rfl, rfl, rfl, rfl, rfl, rfl, rfl, rfl, rfl, rfl⟩

lemma sameExceptVel_set (s : CarState) (v : ℤ) :
    SameExceptVel s { s with velocity := v } := by
  unfold SameExceptVel
  exact ⟨rfl, rfl, rfl, rfl, rfl, rfl, rfl, rfl, rfl, rfl⟩

lemma decelerate_sameExceptVel (s : CarState) (a : ℤ) :
    SameExceptVel s (decelerate s a) := by
  unfold decelerate
  split
  · exact sameExceptVel_set s _
  · exact sameExceptVel_set s _

lemma accelerate_sameExceptVel (s : CarState) (q : ℚ) :
    SameExceptVel s (accelerate s q) := sameExceptVel_set s _

lemma decelerate_velocity_bound (s : CarState) (a : ℤ) (hv : 0 < s.velocity)
    (ha : a ≤ s.velocity + 1) :
    0 ≤ (decelerate s a).velocity ∧ (decelerate s a).velocity ≤ s.velocity := by
  unfold decelerate
  by_cases h : 0 < a
  · rw [if_pos h]
    constructor
    · show 0 ≤ ⌈(a : ℚ) / 2⌉
      have : (0 : ℚ) < (a : ℚ) / 2 := by
        have : (0 : ℚ) < (a : ℚ) := by exact_mod_cast h
        positivity
      exact le_of_lt (Int.ceil_pos.mpr this)
    · show ⌈(a : ℚ) / 2⌉ ≤ s.velocity
      exact ceil_half_le (by omega)
  · rw [if_neg h]
    exact ⟨le_refl 0, hv.le⟩

lemma usableDistance_lb {np : List Pos} {o : Occ} {rest : List Occ} {d : ℤ}
    (h : usableDistance np o rest = some d) :
    -1 ≤ d ∧ (o.isLight = false → 0 ≤ d) := by
  unfold usableDistance at h
  cases hidx : pyIndex np o.pos with
  | none => rw [hidx] at h; simp at h
  | some i =>
    rw [hidx] at h
    cases o with
    | light st p =>
      cases rest with
      | nil =>
        simp only [Option.some.injEq] at h
        subst h
        refine ⟨by omega, by simp [Occ.isLight]⟩
      | cons c1 r =>
        by_cases hc : c1.pos = p
        · simp only [hc, if_true, Option.some.injEq] at h
          subst h
          refine ⟨by omega, by simp [Occ.isLight]⟩
        · simp only [if_neg hc, Option.some.injEq] at h
          subst h
          refine ⟨by omega, by simp [Occ.isLight]⟩
    | other p =>
      simp only [Option.some.injEq] at h
      subst h
      exact ⟨by omega, fun _ => by omega⟩

lemma update_congestion_spec {s s1 : CarState} (h : CarInv s)
    (h1 : update_congestion s = some s1) :
    CarInv s1 ∧ 0 < s1.max_velocity_sum ∧ 1 ≤ s1.steps ∧ s1.pos = s.pos ∧
      s1.pos_i = s.pos_i ∧ s1.path = s.path ∧ s1.velocity = s.velocity ∧
      s1.max_velocity = s.max_velocity := by
  obtain ⟨hmv, hv0, hvm, hvs, hvsm, hst, _⟩ := h
  unfold update_congestion at h1
  by_cases hz : s.max_velocity_sum + s.max_velocity = 0
  · rw [if_pos hz] at h1
    simp at h1
  · rw [if_neg hz] at h1
    simp only [Option.some.injEq] at h1
    subst h1
    have hmvs0 : 0 ≤ s.max_velocity_sum := le_trans hvs hvsm
    refine ⟨⟨hmv, hv0, hvm, ?_, ?_, ?_, fun _ => rfl⟩, ?_, ?_, rfl, rfl, rfl, rfl, rfl⟩
    · show 0 ≤ s.velocity_sum + s.velocity
      omega
    · show s.velocity_sum + s.velocity ≤ s.max_velocity_sum + s.max_velocity
      omega
    · show 0 ≤ s.steps + 1
      omega
    · show 0 < s.max_velocity_sum + s.max_velocity
      omega
    · show 1 ≤ s.steps + 1
      omega

lemma update_congestion_isSome {s : CarState} (h : CarInv s) :
    (update_congestion s).isSome = true := by
  obtain ⟨hmv, hv0, hvm, hvs, hvsm, hst, _⟩ := h
  have hmvs0 : 0 ≤ s.max_velocity_sum := le_trans hvs hvsm
  unfold update_congestion
  rw [if_neg (by omega : ¬s.max_velocity_sum + s.max_velocity = 0)]
  rfl

lemma update_haste_spec {draw : ℚ} {s s1 : CarState} (h : CarInv s)
    (hu : update_haste draw s = some s1) :
    CarInv s1 ∧ s1.pos = s.pos ∧ s1.pos_i = s.pos_i ∧ s1.path = s.path ∧
      s1.velocity_sum = s.velocity_sum ∧ s1.max_velocity_sum = s.max_velocity_sum ∧
      s1.steps = s.steps ∧ s1.congestion = s.congestion ∧
      s1.tolerance = s.tolerance := by
  obtain ⟨hmv, hv0, hvm, hvs, hvsm, hst, hcg⟩ := h
  unfold update_haste at hu
  by_cases h0 : s.steps = 0
  · rw [if_pos h0] at hu; simp at hu
  rw [if_neg h0] at hu
  by_cases hm0 : s.max_velocity = 0
  · rw [if_pos hm0] at hu; simp at hu
  rw [if_neg hm0] at hu
  simp only at hu
  by_cases h10 : 10 < s.steps
  · rw [if_pos h10] at hu
    by_cases hcnd : s.congestion < s.tolerance ∧
        draw < (s.velocity_sum : ℚ) / (s.steps : ℚ) / (s.max_velocity : ℚ)
    · rw [if_pos hcnd] at hu
      simp only [Option.some.injEq] at hu
      subst hu
      have hq : (0 : ℚ) < (s.max_velocity : ℚ) * (1 / 4 : ℚ) := by
        have : (0 : ℚ) < (s.max_velocity : ℚ) := by exact_mod_cast hmv
        positivity
      have hc1 : 1 ≤ ⌈(s.max_velocity : ℚ) * (1 / 4 : ℚ)⌉ := Int.ceil_pos.mpr hq
      refine ⟨⟨?_, ?_, ?_, hvs, hvsm, hst, hcg⟩,
        rfl, rfl, rfl, rfl, rfl, rfl, rfl, rfl⟩
      · simp only [pyInt_intCast]
        omega
      · simp only [pyInt_intCast]
        split <;> omega
      · simp only [pyInt_intCast]
        split <;> omega
    · rw [if_neg hcnd] at hu
      by_cases hh : s.haste ≠ 0
      · rw [if_pos hh] at hu
        simp only [Option.some.injEq] at hu
        subst hu
        refine ⟨⟨by norm_num, ?_, ?_, hvs, hvsm, hst, hcg⟩,
          rfl, rfl, rfl, rfl, rfl, rfl, rfl, rfl⟩
        · simp only
          split <;> omega
        · simp only
          split <;> omega
      · rw [if_neg hh] at hu
        simp only [Option.some.injEq] at hu
        subst hu
        exact ⟨⟨hmv, hv0, hvm, hvs, hvsm, hst, hcg⟩,
          rfl, rfl, rfl, rfl, rfl, rfl, rfl, rfl⟩
  · rw [if_neg h10] at hu
    simp only [Option.some.injEq] at hu
    subst hu
    exact ⟨⟨hmv, hv0, hvm, hvs, hvsm, hst, hcg⟩,
      rfl, rfl, rfl, rfl, rfl, rfl, rfl, rfl⟩

lemma update_haste_isSome {draw : ℚ} {s : CarState} (h0 : s.steps ≠ 0)
    (hm0 : s.max_velocity ≠ 0) : (update_haste draw s).isSome = true := by
  unfold update_haste
  rw [if_neg h0, if_neg hm0]
  simp only
  split
  · split
    · rfl
    · split <;> rfl
  · rfl

lemma reactCurrent_spec {cur : List Occ} {s : CarState} {res : CurrentRes}
    (h : CarInv s) (hr : reactCurrent cur s = some res) :
    res = .halt { s with velocity := 0 } ∨
      ∃ s3, res = .cont s3 ∧ SameExceptVel s s3 ∧ 0 ≤ s3.velocity ∧
        s3.velocity ≤ s.max_velocity := by
  obtain ⟨hmv, hv0, hvm, _, _, _, _⟩ := h
  cases cur with
  | nil => simp [reactCurrent] at hr
  | cons c0 rest =>
    cases c0 with
    | light st p =>
      by_cases hst : st ≠ 0
      · simp only [reactCurrent, if_pos hst, Option.some.injEq] at hr
        subst hr
        exact Or.inl rfl
      · simp only [reactCurrent, if_neg hst, Option.some.injEq] at hr
        subst hr
        refine Or.inr ⟨_, rfl, accelerate_sameExceptVel s _, ?_, ?_⟩
        · show 0 ≤ s.velocity + pyInt ((⌈((s.max_velocity - s.velocity : ℤ) : ℚ)⌉ : ℚ) / 2)
          rw [Int.ceil_intCast]
          have := pyInt_half_bounds (k := s.max_velocity - s.velocity) (by omega)
          omega
        · show s.velocity + pyInt ((⌈((s.max_velocity - s.velocity : ℤ) : ℚ)⌉ : ℚ) / 2) ≤
            s.max_velocity
          rw [Int.ceil_intCast]
          have := pyInt_half_bounds (k := s.max_velocity - s.velocity) (by omega)
          omega
    | other p =>
      simp only [reactCurrent, Option.some.injEq] at hr
      subst hr
      exact Or.inr ⟨s, rfl, sameExceptVel_refl s, hv0, hvm⟩

lemma lookahead_spec {np : List Pos} {content : List Occ} {s s4 : CarState}
    (h : CarInv s) (hl : lookahead np content s = some s4) :
    SameExceptVel s s4 ∧ 0 ≤ s4.velocity ∧ s4.velocity ≤ s.max_velocity := by
  obtain ⟨hmv, hv0, hvm, _, _, _, _⟩ := h
  cases content with
  | nil =>
    simp only [lookahead, Option.some.injEq] at hl
    subst hl
    exact ⟨sameExceptVel_refl s, hv0, hvm⟩
  | cons next_obj rest =>
    cases hd : usableDistance np next_obj rest with
    | none => simp [lookahead, hd] at hl
    | some d =>
      simp only [lookahead, hd] at hl
      obtain ⟨hdlb, hdother⟩ := usableDistance_lb hd
      by_cases hc1 : 0 < s.velocity ∧ d ≤ s.velocity
      · rw [if_pos hc1] at hl
        simp only [Option.some.injEq] at hl
        subst hl
        have hb := decelerate_velocity_bound s (if next_obj.isLight then d + 1 else d)
          hc1.1 (by split <;> omega)
        exact ⟨decelerate_sameExceptVel s _, hb.1, le_trans hb.2 hvm⟩
      · rw [if_neg hc1] at hl
        by_cases hc2 : s.velocity < s.max_velocity
        · rw [if_pos hc2] at hl
          simp only [Option.some.injEq] at hl
          have hk : 1 ≤ s.max_velocity - s.velocity := by omega
          obtain ⟨hz1, hz2⟩ := ceil_half_bounds (k := s.max_velocity - s.velocity) hk
          set z := ⌈((s.max_velocity - s.velocity : ℤ) : ℚ) / 2⌉ with hzdef
          have hvel : (accelerate s ((z : ℤ) : ℚ)).velocity = s.velocity + z := by
            show s.velocity + pyInt ((z : ℤ) : ℚ) = s.velocity + z
            rw [pyInt_intCast]
          subst hl
          cases hil : next_obj.isLight with
          | true =>
            simp only [hil, eq_self_iff_true, if_true]
            split
            · next hb =>
              rw [hvel] at hb
              refine ⟨sameExceptVel_set s _, ?_, ?_⟩
              · show (0 : ℤ) ≤ d + 1
                omega
              · show d + 1 ≤ s.max_velocity
                omega
            · split
              · next hb hb2 =>
                refine ⟨sameExceptVel_set s _, ?_, ?_⟩
                · show (0 : ℤ) ≤ s.max_velocity
                  omega
                · show s.max_velocity ≤ s.max_velocity
                  exact le_refl _
              · next hb hb2 =>
                refine ⟨accelerate_sameExceptVel s _, ?_, ?_⟩
                · rw [hvel]; omega
                · rw [hvel]; omega
          | false =>
            have hd0 : 0 ≤ d := hdother hil
            simp only [hil, Bool.false_eq_true, if_false]
            split
            · next hb =>
              rw [hvel] at hb
              refine ⟨sameExceptVel_set s _, ?_, ?_⟩
              · show (0 : ℤ) ≤ d
                omega
              · show d ≤ s.max_velocity
                omega
            · split
              · next hb hb2 =>
                refine ⟨sameExceptVel_set s _, ?_, ?_⟩
                · show (0 : ℤ) ≤ s.max_velocity
                  omega
                · show s.max_velocity ≤ s.max_velocity
                  exact le_refl _
              · next hb hb2 =>
                refine ⟨accelerate_sameExceptVel s _, ?_, ?_⟩
                · rw [hvel]; omega
                · rw [hvel]; omega
        · rw [if_neg hc2] at hl
          simp only [Option.some.injEq] at hl
          subst hl
          exact ⟨sameExceptVel_refl s, hv0, hvm⟩

lemma move_spec {np : List Pos} {s : CarState} {r : CarResult}
    (hm : move np s = some r) :
    r = .destroyed ∨ ∃ s', r = .alive s' ∧ s'.velocity = s.velocity ∧
      s'.max_velocity = s.max_velocity ∧ s'.velocity_sum = s.velocity_sum ∧
      s'.max_velocity_sum = s.max_velocity_sum ∧ s'.congestion = s.congestion ∧
      s'.steps = s.steps ∧ s'.path = s.path := by
  unfold move at hm
  by_cases h1 : (s.path.length : ℤ) ≤ s.pos_i + s.velocity
  · rw [if_pos h1] at hm
    simp only [Option.some.injEq] at hm
    subst hm
    exact Or.inl rfl
  · rw [if_neg h1] at hm
    by_cases h2 : 0 < s.velocity
    · rw [if_pos h2] at hm
      cases hg : pyGet np (s.velocity - 1) with
      | none => rw [hg] at hm; simp at hm
      | some p =>
        rw [hg] at hm
        simp only [Option.some.injEq] at hm
        subst hm
        exact Or.inr ⟨_, rfl, rfl, rfl, rfl, rfl, rfl, rfl, rfl⟩
    · rw [if_neg h2] at hm
      simp only [Option.some.injEq] at hm
      subst hm
      exact Or.inr ⟨s, rfl, rfl, rfl, rfl, rfl, rfl, rfl, rfl⟩

lemma carInv_of_sameExceptVel {s s' : CarState} (h : CarInv s) (hs : SameExceptVel s s')
    (h0 : 0 ≤ s'.velocity) (hm : s'.velocity ≤ s.max_velocity) : CarInv s' := by
  obtain ⟨a, b, c, d, e, f, gq⟩ := h
  obtain ⟨hpath, hposi, hpos, hmv, hvs, hmvs, hcong, hh, hst, htol⟩ := hs
  refine ⟨hmv ▸ a, h0, hmv ▸ hm, hvs ▸ d, ?_, hst ▸ f, ?_⟩
  · rw [hvs, hmvs]; exact e
  · rw [hmvs, hcong, hvs]; exact gq

lemma carInv_of_fieldEqs {s4 s' : CarState} (h : CarInv s4)
    (hv : s'.velocity = s4.velocity) (hm : s'.max_velocity = s4.max_velocity)
    (hvs : s'.velocity_sum = s4.velocity_sum)
    (hmvs : s'.max_velocity_sum = s4.max_velocity_sum)
    (hcg : s'.congestion = s4.congestion) (hst : s'.steps = s4.steps) : CarInv s' := by
  obtain ⟨a, b, c, d, e, f, gq⟩ := h
  refine ⟨hm ▸ a, hv ▸ b, ?_, hvs ▸ d, ?_, hst ▸ f, ?_⟩
  · rw [hv, hm]; exact c
  · rw [hvs, hmvs]; exact e
  · rw [hmvs, hcg, hvs]; exact gq

/-- One surviving `step()` preserves the invariant. -/
lemma carStep_inv {g : Pos → List Occ} {draw : ℚ} {s s' : CarState}
    (h : CarInv s) (hs : carStep g draw s = some (.alive s')) : CarInv s' := by
  unfold carStep at hs
  rcases Option.bind_eq_some.mp hs with ⟨s1, h1, hs⟩
  rcases Option.bind_eq_some.mp hs with ⟨s2, h2, hs⟩
  obtain ⟨hinv1, hmvs1, hst1, _, _, _, _, _⟩ := update_congestion_spec h h1
  obtain ⟨hinv2, _, _, _, _, _, _, _, _⟩ := update_haste_spec hinv1 h2
  simp only [carStepAfter] at hs
  rcases Option.bind_eq_some.mp hs with ⟨res, hres, hs⟩
  rcases reactCurrent_spec hinv2 hres with hhalt | ⟨s3, hcont, hsame3, hv3, hvm3⟩
  · subst hhalt
    simp only [Option.some.injEq, CarResult.alive.injEq] at hs
    subst hs
    refine carInv_of_sameExceptVel hinv2 (sameExceptVel_set s2 0) ?_ ?_
    · show (0 : ℤ) ≤ 0
      omega
    · show (0 : ℤ) ≤ s2.max_velocity
      have := hinv2.1
      omega
  · subst hcont
    simp only at hs
    rcases Option.bind_eq_some.mp hs with ⟨s4, h4, hmov⟩
    have hinv3 : CarInv s3 := carInv_of_sameExceptVel hinv2 hsame3 hv3 hvm3
    obtain ⟨hsame4, hv4, hvm4⟩ := lookahead_spec hinv3 h4
    have hinv4 : CarInv s4 := carInv_of_sameExceptVel hinv3 hsame4 hv4
      (by rw [hsame3.2.2.2.1] at hvm4; rw [hsame3.2.2.2.1]; exact hvm4)
    rcases move_spec hmov with hdes | ⟨s5, halive, hv5, hm5, hvs5, hmvs5, hcg5, hst5, _⟩
    · exact CarResult.noConfusion hdes
    · have hes : s' = s5 := by injection halive
      subst hes
      exact carInv_of_fieldEqs hinv4 hv5 hm5 hvs5 hmvs5 hcg5 hst5

/-- A freshly constructed agent (with `max_velocity ≥ 1`) satisfies the
invariant. -/
lemma carInit_inv {path : List Pos} {mv : ℤ} {tol : ℚ} {s : CarState}
    (hmv : 1 ≤ mv) (h : carInit path mv tol = some s) : CarInv s := by
  cases path with
  | nil => simp [carInit] at h
  | cons p rest =>
    simp only [carInit, if_neg (by omega : ¬mv = 0), Option.some.injEq] at h
    subst h
    refine ⟨hmv, ?_, ?_, ?_, ?_, ?_, ?_⟩
    · show 0 ≤ mv
      omega
    · show mv ≤ mv
      omega
    · show (0 : ℤ) ≤ 0
      omega
    · show (0 : ℤ) ≤ 0
      omega
    · show (0 : ℤ) ≤ 0
      omega
    · intro hpos
      have h00 : (0 : ℤ) < 0 := hpos
      omega

lemma carReachable_inv {s : CarState} (h : CarReachable s) : CarInv s := by
  induction h with
  | init path mv tol s hmv hin => exact carInit_inv hmv hin
  | step g draw s s' hr hstep ih => exact carStep_inv ih hstep

/-- **C4**: for every reachable `CarAgent` state (constructed with
`max_velocity ≥ 1`, hence starting with `velocity = max_velocity`),
after any single surviving `step()` the velocity satisfies
`0 ≤ velocity ≤ max_velocity`. -/
theorem c4_velocity_bounds {s : CarState} (hr : CarReachable s)
    (g : Pos → List Occ) (draw : ℚ) (s' : CarState)
    (hs : carStep g draw s = some (.alive s')) :
    0 ≤ s'.velocity ∧ s'.velocity ≤ s'.max_velocity := by
  have h := carStep_inv (carReachable_inv hr) hs
  exact ⟨h.2.1, h.2.2.1⟩

lemma carW_init : carInit [(0, 0), (1, 0)] 1 0 = some carW := rfl

lemma carW_reachable : CarReachable carW :=
  CarReachable.init [(0, 0), (1, 0)] 1 0 carW (by omega) carW_init

lemma carW_step : carStep gRed 0 carW = some (.alive carW1) := rfl

theorem c4_witness : 0 ≤ carW1.velocity ∧ carW1.velocity ≤ carW1.max_velocity :=
  c4_velocity_bounds carW_reachable gRed 0 carW1 carW_step

/-- **C5**: for every reachable `CarAgent` state with
`max_velocity_sum > 0`, the congestion field lies in `[0, 1]` and equals
`velocity_sum / max_velocity_sum`. -/
theorem c5_congestion_bounds {s : CarState} (hr : CarReachable s)
    (hpos : 0 < s.max_velocity_sum) :
    0 ≤ s.congestion ∧ s.congestion ≤ 1 ∧
      s.congestion = (s.velocity_sum : ℚ) / (s.max_velocity_sum : ℚ) := by
  obtain ⟨hmv, hv0, hvm, hvs, hvsm, hst, hcg⟩ := carReachable_inv hr
  have hc := hcg hpos
  have h1 : (0 : ℚ) < (s.max_velocity_sum : ℚ) := by exact_mod_cast hpos
  have h2 : (0 : ℚ) ≤ (s.velocity_sum : ℚ) := by exact_mod_cast hvs
  have h3 : (s.velocity_sum : ℚ) ≤ (s.max_velocity_sum : ℚ) := by exact_mod_cast hvsm
  refine ⟨?_, ?_, hc⟩
  · rw [hc]
    exact div_nonneg h2 h1.le
  · rw [hc]
    exact (div_le_one h1).mpr h3

lemma carW1_reachable : CarReachable carW1 :=
  CarReachable.step gRed 0 carW carW1 carW_reachable carW_step

theorem c5_witness :
    0 ≤ carW1.congestion ∧ carW1.congestion ≤ 1 ∧
      carW1.congestion = (carW1.velocity_sum : ℚ) / (carW1.max_velocity_sum : ℚ) :=
  c5_congestion_bounds carW1_reachable (by norm_num [carW1])

/-- **C10**: on every reachable state (any agent constructed with
`max_velocity ≥ 1`) the two division-performing phases of `step()`
cannot raise `ZeroDivisionError`: `update_congestion` (which runs first)
succeeds, and afterwards `steps ≥ 1`, `max_velocity_sum ≥ 1` and
`max_velocity ≥ 1` hold, so `update_haste` — whose quotient
`(velocity_sum/steps)/max_velocity` is computed unconditionally, before
the `steps > 10` guard — succeeds as well. -/
theorem c10_no_zero_division {s : CarState} (hr : CarReachable s) (draw : ℚ) :
    (update_congestion s).isSome = true ∧
      ∀ s1, update_congestion s = some s1 →
        1 ≤ s1.steps ∧ 1 ≤ s1.max_velocity_sum ∧ 1 ≤ s1.max_velocity ∧
          (update_haste draw s1).isSome = true := by
  have hinv := carReachable_inv hr
  refine ⟨update_congestion_isSome hinv, fun s1 h1 => ?_⟩
  obtain ⟨hinv1, hmvs1, hst1, _, _, _, _, _⟩ := update_congestion_spec hinv h1
  exact ⟨hst1, by omega, hinv1.1, update_haste_isSome (by omega) (by have := hinv1.1; omega)⟩

theorem c10_witness :
    (update_congestion carW).isSome = true ∧
      ∀ s1, update_congestion carW = some s1 →
        1 ≤ s1.steps ∧ 1 ≤ s1.max_velocity_sum ∧ 1 ≤ s1.max_velocity ∧
          (update_haste 0 s1).isSome = true :=
  c10_no_zero_division carW_reachable 0

lemma update_congestion_posFields {s s1 : CarState}
    (h : update_congestion s = some s1) :
    s1.pos = s.pos ∧ s1.pos_i = s.pos_i := by
  unfold update_congestion at h
  by_cases hz : s.max_velocity_sum + s.max_velocity = 0
  · rw [if_pos hz] at h
    simp at h
  · rw [if_neg hz] at h
    simp only [Option.some.injEq] at h
    subst h
    exact ⟨rfl, rfl⟩

lemma update_haste_posFields {draw : ℚ} {s s1 : CarState}
    (h : update_haste draw s = some s1) :
    s1.pos = s.pos ∧ s1.pos_i = s.pos_i := by
  unfold update_haste at h
  by_cases h0 : s.steps = 0
  · rw [if_pos h0] at h; simp at h
  rw [if_neg h0] at h
  by_cases hm0 : s.max_velocity = 0
  · rw [if_pos hm0] at h; simp at h
  rw [if_neg hm0] at h
  simp only at h
  by_cases h10 : 10 < s.steps
  · rw [if_pos h10] at h
    by_cases hcnd : s.congestion < s.tolerance ∧
        draw < (s.velocity_sum : ℚ) / (s.steps : ℚ) / (s.max_velocity : ℚ)
    · rw [if_pos hcnd] at h
      simp only [Option.some.injEq] at h
      subst h
      exact ⟨rfl, rfl⟩
    · rw [if_neg hcnd] at h
      by_cases hh : s.haste ≠ 0
      · rw [if_pos hh] at h
        simp only [Option.some.injEq] at h
        subst h
        exact ⟨rfl, rfl⟩
      · rw [if_neg hh] at h
        simp only [Option.some.injEq] at h
        subst h
        exact ⟨rfl, rfl⟩
  · rw [if_neg h10] at h
    simp only [Option.some.injEq] at h
    subst h
    exact ⟨rfl, rfl⟩

/-- **C1 (amended)**: whenever the *first* occupant of the agent's
current cell is a `TrafficLightAgent` whose state is not green, a
completing `step()` zeroes the velocity and performs no movement:
`pos_i` and the grid position are unchanged and the agent survives. -/
theorem c1_red_first_occupant_halts (g : Pos → List Occ) (draw : ℚ) (s : CarState)
    (st : ℤ) (p : Pos) (rest : List Occ) (r : CarResult)
    (hg : g s.pos = Occ.light st p :: rest) (hst : st ≠ 0)
    (hs : carStep g draw s = some r) :
    ∃ s', r = .alive s' ∧ s'.velocity = 0 ∧ s'.pos_i = s.pos_i ∧ s'.pos = s.pos := by
  unfold carStep at hs
  rcases Option.bind_eq_some.mp hs with ⟨s1, h1, hs⟩
  rcases Option.bind_eq_some.mp hs with ⟨s2, h2, hs⟩
  obtain ⟨hpos1, hposi1⟩ := update_congestion_posFields h1
  obtain ⟨hpos2, hposi2⟩ := update_haste_posFields h2
  simp only [carStepAfter] at hs
  rcases Option.bind_eq_some.mp hs with ⟨res, hres, hs⟩
  rw [hpos2, hpos1, hg] at hres
  simp only [reactCurrent, if_pos hst, Option.some.injEq] at hres
  subst hres
  simp only [Option.some.injEq] at hs
  refine ⟨{ s2 with velocity := 0 }, hs.symm, rfl, ?_, ?_⟩
  · show s2.pos_i = s.pos_i
    rw [hposi2, hposi1]
  · show s2.pos = s.pos
    rw [hpos2, hpos1]

/-- **C1 counterexample**: a red `TrafficLightAgent` occupies the
agent's current cell (as its *second* occupant), yet `step()` leaves the
velocity nonzero and moves the agent — the code only inspects
`current[0]`. -/
theorem c1_counterexample :
    Occ.light 2 ((0 : ℤ), (0 : ℤ)) ∈ gC1 carC1.pos ∧
      carStep gC1 0 carC1 = some (.alive carC1After) ∧
      carC1After.velocity ≠ 0 ∧ carC1After.pos_i ≠ carC1.pos_i ∧
      carC1After.pos ≠ carC1.pos := by
  refine ⟨by decide, rfl, by decide, by decide, by decide⟩

/-- **C6 counterexample**: `switch(include_yellow=False)` on a Yellow
light (state 1) yields Red (state 2), not Green (state 0) as the claim
says. -/
theorem c6_counterexample :
    (TrafficLight.switch false { state := 1, pos := (0, 0) }).state = 2 ∧
      ¬(TrafficLight.switch false { state := 1, pos := (0, 0) }).state = 0 := by
  refine ⟨rfl, by decide⟩

/-- **C6 (amended)**: `switch(include_yellow=False)` maps Red to Green
and every other state (Green and Yellow alike) to Red; its result is
never Yellow. -/
theorem c6_switch_no_yellow (t : TrafficLight) :
    (TrafficLight.switch false t).state = (if t.state = 2 then 0 else 2) ∧
      (TrafficLight.switch false t).state ≠ 1 := by
  simp only [TrafficLight.switch, Bool.false_eq_true, if_false]
  by_cases h : t.state = 2
  · rw [if_pos h, if_pos h]
    refine ⟨rfl, ?_⟩
    show (0 : ℤ) ≠ 1
    decide
  · rw [if_neg h, if_neg h]
    refine ⟨rfl, ?_⟩
    show (2 : ℤ) ≠ 1
    decide

/-- **C9 counterexample**: `max_velocity = -1` is `≤ 0` (malformed per
the claim) yet construction succeeds and produces an agent. -/
theorem c9_counterexample :
    (carInit [((0 : ℤ), (0 : ℤ))] (-1) 0).isSome = true ∧ (-1 : ℤ) ≤ 0 := by
  exact ⟨rfl, by decide⟩

/-- **C9 (amended)**: construction fails exactly for an empty path or
`max_velocity = 0` (an `IndexError` on `path[0]` or a
`ZeroDivisionError` on `velocity/max_velocity`); any non-empty path with
`max_velocity ≠ 0` — in particular every `max_velocity ≥ 1`, but also
every negative one — yields an agent. -/
theorem c9_construction_characterisation (path : List Pos) (mv : ℤ) (tol : ℚ) :
    (carInit path mv tol).isSome = true ↔ path ≠ [] ∧ mv ≠ 0 := by
  cases path with
  | nil => simp [carInit]
  | cons p rest =>
    by_cases h : mv = 0
    · simp [carInit, h]
    · simp [carInit, h]

/-- Witness for the amended C1 theorem at a concrete run: `carW` on a
red light halts in place. -/
theorem c1_witness :
    ∃ s', CarResult.alive carW1 = .alive s' ∧ s'.velocity = 0 ∧
      s'.pos_i = carW.pos_i ∧ s'.pos = carW.pos :=
  c1_red_first_occupant_halts gRed 0 carW 2 (0, 0) [] (.alive carW1)
    rfl (by decide) carW_step

/-- **C2 evaluation at the failing input**: the agent's cell holds a
green light, `max_velocity - velocity = 3`; `step()` raises the velocity
by 1 (truncation of `np.ceil(3)/2 = 1.5`) whereas the claimed formula
`ceil((max_velocity - velocity)/2)` gives 2. -/
theorem c2_code_eval :
    gC2 carC2.pos = [Occ.light 0 carC2.pos] ∧
      carStep gC2 0 carC2 = some (.alive carC2After) ∧
      carC2After.velocity - carC2.velocity = 1 ∧
      ⌈((carC2.max_velocity - carC2.velocity : ℤ) : ℚ) / 2⌉ = 2 := by
  refine ⟨rfl, ?_, by decide, ?_⟩
  · have hV : c2s1.velocity +
        pyInt ((⌈((c2s1.max_velocity - c2s1.velocity : ℤ) : ℚ)⌉ : ℚ) / 2) = 1 := by
      show (0 : ℤ) + pyInt ((⌈((3 - 0 : ℤ) : ℚ)⌉ : ℚ) / 2) = 1
      norm_num [pyInt]
    have haccel : accelerate c2s1
        ((⌈((c2s1.max_velocity - c2s1.velocity : ℤ) : ℚ)⌉ : ℚ) / 2) = c2s2 := by
      unfold accelerate
      rw [hV]
      rfl
    calc carStep gC2 0 carC2
        = move npC2 (accelerate c2s1
            ((⌈((c2s1.max_velocity - c2s1.velocity : ℤ) : ℚ)⌉ : ℚ) / 2)) := rfl
      _ = move npC2 c2s2 := by rw [haccel]
      _ = some (.alive carC2After) := rfl
  · show ⌈((3 - 0 : ℤ) : ℚ) / 2⌉ = 2
    have h32 : ((3 - 0 : ℤ) : ℚ) / 2 = 1 + 1 / 2 := by norm_num
    rw [h32]
    norm_num [Int.ceil_eq_iff]

/-- **C3 counterexample**: the nearest lookahead occupant is a
`TrafficLightAgent` at index 3 with a car stopped on the same cell, so
the usable distance is 2; `velocity = 2 > 0` and `2 ≤ velocity`, yet the
deceleration sets `velocity = ceil((2+1)/2) = 2`, not
`ceil(2/2) = 1` as the claim's formula says. -/
theorem c3_counterexample :
    usableDistance npC3 (Occ.light 2 ((4 : ℤ), (0 : ℤ)))
        [Occ.other ((4 : ℤ), (0 : ℤ))] = some 2 ∧
      lookahead npC3 contentC3 carC3 = some (decelerate carC3 3) ∧
      (decelerate carC3 3).velocity = 2 ∧
      ¬((decelerate carC3 3).velocity =
        (if (0 : ℤ) < 2 then ⌈((2 : ℤ) : ℚ) / 2⌉ else 0)) := by
  have hdec : (decelerate carC3 3).velocity = 2 := by
    unfold decelerate
    rw [if_pos (by decide : (0 : ℤ) < 3)]
    show ⌈((3 : ℤ) : ℚ) / 2⌉ = 2
    have h32 : ((3 : ℤ) : ℚ) / 2 = 1 + 1 / 2 := by norm_num
    rw [h32]
    norm_num [Int.ceil_eq_iff]
  refine ⟨by decide, rfl, hdec, ?_⟩
  rw [hdec, if_pos (by decide : (0 : ℤ) < 2)]
  have h22 : ((2 : ℤ) : ℚ) / 2 = 1 := by norm_num
  rw [h22]
  norm_num

/-- **C3 (amended)**: (a) when the nearest lookahead occupant is a
`TrafficLightAgent` and the next occupant sits on the same cell, the
usable distance is one less than the index offset of the light;
(b) whenever `velocity > 0` and the usable distance `d` satisfies
`d ≤ velocity`, the code calls `decelerate` with `d + 1` when the
occupant is a traffic light and with `d` otherwise (so the new velocity
is `ceil((d+1)/2)` resp. `ceil(d/2)` when that argument is positive, and
0 otherwise). -/
theorem c3_buffer_and_decelerate :
    (∀ (np : List Pos) (st : ℤ) (q : Pos) (c1 : Occ) (rest : List Occ) (i : ℕ),
        pyIndex np q = some i → c1.pos = q →
        usableDistance np (Occ.light st q) (c1 :: rest) = some ((i : ℤ) - 1)) ∧
      (∀ (np : List Pos) (o : Occ) (rest : List Occ) (s : CarState) (d : ℤ),
        usableDistance np o rest = some d → 0 < s.velocity → d ≤ s.velocity →
        lookahead np (o :: rest) s =
          some (decelerate s (if o.isLight then d + 1 else d))) := by
  constructor
  · intro np st q c1 rest i hi hc
    cases c1 with
    | light st2 p2 =>
      simp only [Occ.pos] at hc
      subst hc
      simp only [usableDistance, Occ.pos, hi]
      rw [if_true]
    | other p2 =>
      simp only [Occ.pos] at hc
      subst hc
      simp only [usableDistance, Occ.pos, hi]
      rw [if_true]
  · intro np o rest s d hd h1 h2
    simp only [lookahead, hd]
    rw [if_pos ⟨h1, h2⟩]

/-- Witness for the amended C3 theorem: a light at index 0 with a
stopped car on its cell gives usable distance `-1`, and the decelerate
branch fires with distance `-1 + 1 = 0`. -/
theorem c3_witness :
    usableDistance [((1 : ℤ), (0 : ℤ))] (Occ.light 2 ((1 : ℤ), (0 : ℤ)))
        [Occ.other ((1 : ℤ), (0 : ℤ))] = some (-1) ∧
      lookahead [((1 : ℤ), (0 : ℤ))]
          [Occ.light 2 ((1 : ℤ), (0 : ℤ)), Occ.other ((1 : ℤ), (0 : ℤ))] carW =
        some (decelerate carW
          (if (Occ.light 2 ((1 : ℤ), (0 : ℤ))).isLight then (-1 : ℤ) + 1 else -1)) := by
  constructor
  · exact c3_buffer_and_decelerate.1 [((1 : ℤ), (0 : ℤ))] 2 ((1 : ℤ), (0 : ℤ))
      (Occ.other ((1 : ℤ), (0 : ℤ))) [] 0 rfl rfl
  · exact c3_buffer_and_decelerate.2 [((1 : ℤ), (0 : ℤ))]
      (Occ.light 2 ((1 : ℤ), (0 : ℤ))) [Occ.other ((1 : ℤ), (0 : ℤ))] carW (-1)
      (by decide) (by decide) (by decide)

/-! ### C7: the green/yellow/full-cycle scenario -/

/-- **C7**: with `green_duration = 3` (and the hardcoded
`yellow_duration = 2`), a light starting Green stays Green through the
steps entered with counter 0, 1, 2; the step entered with counter 3
turns the Green lights Yellow; the step entered with counter 5 advances
every light one phase and resets the counter to 0 (before the
unconditional final increment, which runs on every call). -/
theorem c7_intersection_scenario :
    (iC7 0).counter = 0 ∧ (iC7 0).green_duration = 3 ∧
      (iC7 0).yellow_duration = 2 ∧
      (iC7 0).traffic_lights.map TrafficLight.state = [2, 0, 2, 0] ∧
      ((iC7 1).traffic_lights.map TrafficLight.state = [2, 0, 2, 0] ∧
        (iC7 1).counter = 1) ∧
      ((iC7 2).traffic_lights.map TrafficLight.state = [2, 0, 2, 0] ∧
        (iC7 2).counter = 2) ∧
      ((iC7 3).traffic_lights.map TrafficLight.state = [2, 0, 2, 0] ∧
        (iC7 3).counter = 3) ∧
      ((iC7 4).traffic_lights.map TrafficLight.state = [2, 1, 2, 1] ∧
        (iC7 4).counter = 4) ∧
      ((iC7 5).traffic_lights.map TrafficLight.state = [2, 1, 2, 1] ∧
        (iC7 5).counter = 5) ∧
      ((intersectionPhase (iC7 5)).traffic_lights =
          (iC7 5).traffic_lights.map (TrafficLight.switch true) ∧
        (intersectionPhase (iC7 5)).counter = 0 ∧
        (iC7 6).traffic_lights.map TrafficLight.state = [0, 2, 0, 2] ∧
        (iC7 6).counter = 1) ∧
      ∀ s : IntersectionState,
        (intersectionStep s).counter = (intersectionPhase s).counter + 1 := by
  refine ⟨rfl, rfl, rfl, by decide, ⟨by decide, by decide⟩, ⟨by decide, by decide⟩,
    ⟨by decide, by decide⟩, ⟨by decide, by decide⟩, ⟨by decide, by decide⟩,
    ⟨by decide, by decide, by decide, by decide⟩, fun s => rfl⟩

/-! ### C8: the two opposite-phase pairs are never both green -/

lemma iInit_inv (p : Pos) (g : ℤ) : IInv g (intersectionInit p g) := by
  refine ⟨rfl, rfl, le_refl 0, 2, 0, rfl, ?_⟩
  show Safe g 0 2 0
  unfold Safe
  omega

lemma istep_green {s : IntersectionState} (hy : 0 < s.yellow_duration)
    (hc : s.counter = s.green_duration) :
    intersectionStep s =
      { s with
        traffic_lights := s.traffic_lights.map fun tl =>
          if tl.state = 0 then tl.switch true else tl
        counter := s.counter + 1 } := by
  unfold intersectionStep intersectionPhase
  rw [if_pos hy, if_pos hc]

lemma istep_full {s : IntersectionState} (hy : 0 < s.yellow_duration)
    (hne : ¬s.counter = s.green_duration)
    (hc : s.counter = s.green_duration + s.yellow_duration) :
    intersectionStep s =
      { s with
        traffic_lights := s.traffic_lights.map (TrafficLight.switch true)
        counter := 0 + 1 } := by
  unfold intersectionStep intersectionPhase
  rw [if_pos hy, if_neg hne, if_pos hc]

lemma istep_idle {s : IntersectionState} (hy : 0 < s.yellow_duration)
    (hne : ¬s.counter = s.green_duration)
    (hne2 : ¬s.counter = s.green_duration + s.yellow_duration) :
    intersectionStep s = { s with counter := s.counter + 1 } := by
  unfold intersectionStep intersectionPhase
  rw [if_pos hy, if_neg hne, if_neg hne2]

lemma map_state_greens (lights : List TrafficLight) :
    ((lights.map fun tl => if tl.state = 0 then tl.switch true else tl).map
        TrafficLight.state) =
      (lights.map TrafficLight.state).map fun x => if x = 0 then 1 else x := by
  induction lights with
  | nil => rfl
  | cons t ts ih =>
    simp only [List.map_cons, ih, List.cons.injEq, and_true]
    by_cases h : t.state = 0
    · simp [TrafficLight.switch, h]
    · simp [h]

lemma map_state_switch (lights : List TrafficLight) :
    ((lights.map (TrafficLight.switch true)).map TrafficLight.state) =
      (lights.map TrafficLight.state).map fun x => if x = 2 then 0 else x + 1 := by
  induction lights with
  | nil => rfl
  | cons t ts ih =>
    simp only [List.map_cons, ih, List.cons.injEq, and_true]
    by_cases h : t.state = 2
    · simp [TrafficLight.switch, h]
    · simp [TrafficLight.switch, h]

lemma iidle_inv {g : ℤ} {s : IntersectionState} (hg : s.green_duration = g)
    (hy : s.yellow_duration = 2) (hc0 : 0 ≤ s.counter) {a b : ℤ}
    (hls : s.traffic_lights.map TrafficLight.state = [a, b, a, b])
    (hne : ¬s.counter = s.green_duration)
    (hne2 : ¬s.counter = s.green_duration + s.yellow_duration)
    (hsafe : Safe g (s.counter + 1) a b) : IInv g (intersectionStep s) := by
  rw [istep_idle (by omega) hne hne2]
  exact ⟨hg, hy, by show 0 ≤ s.counter + 1; omega, a, b, hls, hsafe⟩

lemma igreen_inv {g : ℤ} {s : IntersectionState} (hg : s.green_duration = g)
    (hy : s.yellow_duration = 2) (hc0 : 0 ≤ s.counter) {a b : ℤ}
    (hls : s.traffic_lights.map TrafficLight.state = [a, b, a, b])
    (hc : s.counter = s.green_duration)
    (hsafe : Safe g (s.counter + 1) (if a = 0 then 1 else a)
      (if b = 0 then 1 else b)) : IInv g (intersectionStep s) := by
  rw [istep_green (by omega) hc]
  refine ⟨hg, hy, by show 0 ≤ s.counter + 1; omega,
    if a = 0 then 1 else a, if b = 0 then 1 else b, ?_, hsafe⟩
  show ((s.traffic_lights.map fun tl =>
      if tl.state = 0 then tl.switch true else tl).map TrafficLight.state) = _
  rw [map_state_greens, hls]
  rfl

lemma ifull_inv {g : ℤ} {s : IntersectionState} (hg : s.green_duration = g)
    (hy : s.yellow_duration = 2) {a b : ℤ}
    (hls : s.traffic_lights.map TrafficLight.state = [a, b, a, b])
    (hne : ¬s.counter = s.green_duration)
    (hc : s.counter = s.green_duration + s.yellow_duration)
    (hsafe : Safe g (0 + 1) (if a = 2 then 0 else a + 1)
      (if b = 2 then 0 else b + 1)) : IInv g (intersectionStep s) := by
  rw [istep_full (by omega) hne hc]
  refine ⟨hg, hy, by show (0 : ℤ) ≤ 0 + 1; omega,
    if a = 2 then 0 else a + 1, if b = 2 then 0 else b + 1, ?_, hsafe⟩
  show ((s.traffic_lights.map (TrafficLight.switch true)).map
    TrafficLight.state) = _
  rw [map_state_switch, hls]
  rfl

lemma safe_idle {g c a b : ℤ} (h : Safe g c a b) (hne : ¬c = g)
    (hne2 : ¬c = g + 2) : Safe g (c + 1) a b := by
  rcases h with
      ⟨hg1, ⟨hc1, hab⟩ | ⟨hc1, hc2, hab⟩⟩ |
      ⟨hg0, ⟨hc1, ha, hb⟩ | ⟨hc1, hc2, hab⟩⟩ |
      ⟨hgm1, ⟨hc1, ha, hb⟩ | ⟨hc1, hab⟩⟩ |
      ⟨hgm2, ⟨hc1, ha, hb⟩ | ⟨hc1, ha, hb⟩⟩ |
      ⟨hgm3, ha, hb⟩
  · exact Or.inl ⟨hg1, Or.inl ⟨by omega, hab⟩⟩
  · exact Or.inl ⟨hg1, Or.inr ⟨by omega, by omega, hab⟩⟩
  · exact (False.elim (by omega))
  · exact Or.inr (Or.inl ⟨hg0, Or.inr ⟨by omega, by omega, hab⟩⟩)
  · exact Or.inr (Or.inr (Or.inl ⟨hgm1,
      Or.inr ⟨by omega, Or.inr (Or.inr ⟨ha, hb⟩)⟩⟩))
  · exact (False.elim (by omega))
  · exact (False.elim (by omega))
  · exact Or.inr (Or.inr (Or.inr (Or.inl ⟨hgm2, Or.inr ⟨by omega, ha, hb⟩⟩)))
  · exact Or.inr (Or.inr (Or.inr (Or.inr ⟨hgm3, ha, hb⟩)))

lemma safe_green {g c a b : ℤ} (h : Safe g c a b) (hc : c = g) (hc0 : 0 ≤ c) :
    Safe g (c + 1) (if a = 0 then 1 else a) (if b = 0 then 1 else b) := by
  rcases h with
      ⟨hg1, ⟨hc1, ⟨ha, hb⟩ | ⟨ha, hb⟩⟩ | ⟨hc1, hc2, hab⟩⟩ |
      ⟨hg0, ⟨hc1, ha, hb⟩ | ⟨hc1, hc2, hab⟩⟩ |
      ⟨hgm1, hR⟩ | ⟨hgm2, hR⟩ | ⟨hgm3, ha, hb⟩
  · subst ha
    subst hb
    exact Or.inl ⟨hg1, Or.inr ⟨by omega, by omega,
      Or.inl ⟨by norm_num, by norm_num⟩⟩⟩
  · subst ha
    subst hb
    exact Or.inl ⟨hg1, Or.inr ⟨by omega, by omega,
      Or.inr ⟨by norm_num, by norm_num⟩⟩⟩
  · exact (False.elim (by omega))
  · subst ha
    subst hb
    exact Or.inr (Or.inl ⟨hg0, Or.inr ⟨by omega, by omega,
      Or.inl ⟨by norm_num, by norm_num⟩⟩⟩)
  · exact (False.elim (by omega))
  · rcases hR with ⟨hc1, ha, hb⟩ | ⟨hc1, hab⟩ <;> exact (False.elim (by omega))
  · rcases hR with ⟨hc1, ha, hb⟩ | ⟨hc1, ha, hb⟩ <;> exact (False.elim (by omega))
  · exact (False.elim (by omega))

lemma safe_full {g c a b : ℤ} (h : Safe g c a b) (_hne : ¬c = g)
    (hc : c = g + 2) (hc0 : 0 ≤ c) :
    Safe g (0 + 1) (if a = 2 then 0 else a + 1) (if b = 2 then 0 else b + 1) := by
  rcases h with
      ⟨hg1, ⟨hc1, hab⟩ | ⟨hc1, hc2, ⟨ha, hb⟩ | ⟨ha, hb⟩⟩⟩ |
      ⟨hg0, ⟨hc1, ha, hb⟩ | ⟨hc1, hc2, ⟨ha, hb⟩ | ⟨ha, hb⟩ | ⟨ha, hb⟩⟩⟩ |
      ⟨hgm1, ⟨hc1, ha, hb⟩ | ⟨hc1, ⟨ha, hb⟩ | ⟨ha, hb⟩ | ⟨ha, hb⟩⟩⟩ |
      ⟨hgm2, ⟨hc1, ha, hb⟩ | ⟨hc1, ha, hb⟩⟩ |
      ⟨hgm3, ha, hb⟩
  · rcases hab with ⟨ha, hb⟩ | ⟨ha, hb⟩ <;> exact (False.elim (by omega))
  · subst ha
    subst hb
    exact Or.inl ⟨hg1, Or.inl ⟨by omega, Or.inr ⟨by norm_num, by norm_num⟩⟩⟩
  · subst ha
    subst hb
    exact Or.inl ⟨hg1, Or.inl ⟨by omega, Or.inl ⟨by norm_num, by norm_num⟩⟩⟩
  · exact (False.elim (by omega))
  · subst ha
    subst hb
    exact Or.inr (Or.inl ⟨hg0, Or.inr ⟨by omega, by omega,
      Or.inr (Or.inl ⟨by norm_num, by norm_num⟩)⟩⟩)
  · subst ha
    subst hb
    exact Or.inr (Or.inl ⟨hg0, Or.inr ⟨by omega, by omega,
      Or.inr (Or.inr ⟨by norm_num, by norm_num⟩)⟩⟩)
  · subst ha
    subst hb
    exact Or.inr (Or.inl ⟨hg0, Or.inr ⟨by omega, by omega,
      Or.inl ⟨by norm_num, by norm_num⟩⟩⟩)
  · exact (False.elim (by omega))
  · subst ha
    subst hb
    exact Or.inr (Or.inr (Or.inl ⟨hgm1, Or.inr ⟨by omega,
      Or.inr (Or.inl ⟨by norm_num, by norm_num⟩)⟩⟩))
  · subst ha
    subst hb
    exact Or.inr (Or.inr (Or.inl ⟨hgm1, Or.inr ⟨by omega,
      Or.inr (Or.inr ⟨by norm_num, by norm_num⟩)⟩⟩))
  · subst ha
    subst hb
    exact Or.inr (Or.inr (Or.inl ⟨hgm1, Or.inr ⟨by omega,
      Or.inl ⟨by norm_num, by norm_num⟩⟩⟩))
  · subst ha
    subst hb
    exact Or.inr (Or.inr (Or.inr (Or.inl ⟨hgm2,
      Or.inr ⟨by omega, by norm_num, by norm_num⟩⟩)))
  · exact (False.elim (by omega))
  · exact (False.elim (by omega))

lemma iStep_inv {g : ℤ} {s : IntersectionState} (h : IInv g s) :
    IInv g (intersectionStep s) := by
  obtain ⟨hg, hy, hc0, a, b, hls, hsafe⟩ := h
  by_cases hc1 : s.counter = g
  · exact igreen_inv hg hy hc0 hls (by omega) (safe_green hsafe (by omega) hc0)
  · by_cases hc2 : s.counter = g + 2
    · exact ifull_inv hg hy hls (by omega) (by omega)
        (safe_full hsafe (by omega) (by omega) hc0)
    · exact iidle_inv hg hy hc0 hls (by omega) (by omega)
        (safe_idle hsafe (by omega) (by omega))

lemma safe_not_both_zero {g c a b : ℤ} (h : Safe g c a b) : ¬(a = 0 ∧ b = 0) := by
  unfold Safe at h
  omega

lemma iInv_not_bothPairsGreen {g : ℤ} {s : IntersectionState} (h : IInv g s) :
    ¬bothPairsGreen s := by
  obtain ⟨hg, hy, hc0, a, b, hls, hsafe⟩ := h
  rintro ⟨hA, hB⟩
  have h0 := congrArg (fun l : List ℤ => l.get? 0) hls
  have h1 := congrArg (fun l : List ℤ => l.get? 1) hls
  have h2 := congrArg (fun l : List ℤ => l.get? 2) hls
  have h3 := congrArg (fun l : List ℤ => l.get? 3) hls
  simp only [List.get?_map] at h0 h1 h2 h3
  have ha0 : a = 0 := by
    rcases hA with ⟨t, hget, hst⟩ | ⟨t, hget, hst⟩
    · rw [hget] at h0
      simp at h0
      omega
    · rw [hget] at h2
      simp at h2
      omega
  have hb0 : b = 0 := by
    rcases hB with ⟨t, hget, hst⟩ | ⟨t, hget, hst⟩
    · rw [hget] at h1
      simp at h1
      omega
    · rw [hget] at h3
      simp at h3
      omega
  exact safe_not_both_zero hsafe ⟨ha0, hb0⟩

/-- **C8**: the controller owns exactly 4 lights, created in 2
opposite-phase pairs with complementary initial states (lights 0 and 2
Red, lights 1 and 3 Green), and on every state reachable by repeatedly
calling `step()` from construction the two pairs are never
simultaneously green. -/
theorem c8_pairs_never_both_green (p : Pos) (g : ℤ) (s : IntersectionState)
    (hr : IReachable p g s) :
    (intersectionInit p g).traffic_lights.map TrafficLight.state = [2, 0, 2, 0] ∧
      s.traffic_lights.length = 4 ∧ ¬bothPairsGreen s := by
  have hinv : IInv g s := by
    induction hr with
    | init => exact iInit_inv p g
    | step s hr ih => exact iStep_inv ih
  refine ⟨rfl, ?_, iInv_not_bothPairsGreen hinv⟩
  obtain ⟨_, _, _, a, b, hls, _⟩ := hinv
  have hlen := congrArg List.length hls
  simpa using hlen

theorem c8_witness :
    (intersectionInit (0, 0) 3).traffic_lights.map TrafficLight.state =
        [2, 0, 2, 0] ∧
      (intersectionInit (0, 0) 3).traffic_lights.length = 4 ∧
      ¬bothPairsGreen (intersectionInit (0, 0) 3) :=
  c8_pairs_never_both_green (0, 0) 3 (intersectionInit (0, 0) 3) IReachable.init

end ABM
